import Mathlib

/-!
# Verification of the OpenPNM capillary-pressure physics models

Shallow embedding of `OpenPNM/Physics/models/capillary_pressure.py`.

Numeric values computed by the models are embedded in the type `F`: a real
number (idealised double-precision float, no rounding and no overflow), a
signed infinity, or NaN.  This captures the IEEE behaviours the module's code
relies on — signed infinities from division by zero, NaN from invalid
operations (`inf * 0`, `arcsin` outside `[-1, 1]`, `sqrt` of a negative) and
the `value[abs(value) == inf] = 0` post-processing masks — while keeping
finite arithmetic exact real arithmetic.

Arrays are embedded as `List F` (or `List ℝ` / `List Bool` where the code only
handles plain data); `numpy` elementwise operations become `List.map` over an
index range, and fancy indexing `a[idx]` becomes `idx.map (a.getD · default)`.
Operations that raise in Python (`max` of an empty array, `np.min` of an empty
array, invalid dtype for `~`) are embedded with `Except Unit`.
-/

open Real

/-- An IEEE-style scalar: a finite real, `+inf`, `-inf`, or NaN. -/
inductive F where
  | fin : ℝ → F
  | pinf : F
  | ninf : F
  | nan : F

noncomputable instance : DecidableEq F := Classical.decEq F

namespace F

/-- IEEE addition. -/
noncomputable def add : F → F → F
  | fin a, fin b => fin (a + b)
  | fin _, pinf => pinf
  | pinf, fin _ => pinf
  | fin _, ninf => ninf
  | ninf, fin _ => ninf
  | pinf, pinf => pinf
  | ninf, ninf => ninf
  | pinf, ninf => nan
  | ninf, pinf => nan
  | nan, _ => nan
  | _, nan => nan

/-- IEEE subtraction. -/
noncomputable def sub : F → F → F
  | fin a, fin b => fin (a - b)
  | fin _, pinf => ninf
  | pinf, fin _ => pinf
  | fin _, ninf => pinf
  | ninf, fin _ => ninf
  | pinf, ninf => pinf
  | ninf, pinf => ninf
  | pinf, pinf => nan
  | ninf, ninf => nan
  | nan, _ => nan
  | _, nan => nan

/-- IEEE negation. -/
noncomputable def neg : F → F
  | fin a => fin (-a)
  | pinf => ninf
  | ninf => pinf
  | nan => nan

/-- IEEE multiplication (`0 * inf = nan`). -/
noncomputable def mul : F → F → F
  | fin a, fin b => fin (a * b)
  | fin a, pinf => if a = 0 then nan else if 0 < a then pinf else ninf
  | pinf, fin b => if b = 0 then nan else if 0 < b then pinf else ninf
  | fin a, ninf => if a = 0 then nan else if 0 < a then ninf else pinf
  | ninf, fin b => if b = 0 then nan else if 0 < b then ninf else pinf
  | pinf, pinf => pinf
  | ninf, ninf => pinf
  | pinf, ninf => ninf
  | ninf, pinf => ninf
  | nan, _ => nan
  | _, nan => nan

/-- IEEE division (`x / 0` is a signed infinity for `x ≠ 0`, `0 / 0 = nan`,
`inf / inf = nan`; a division by an infinity yields `0`). -/
noncomputable def div : F → F → F
  | fin a, fin b =>
      if b = 0 then (if a = 0 then nan else if 0 < a then pinf else ninf)
      else fin (a / b)
  | fin _, pinf => fin 0
  | fin _, ninf => fin 0
  | pinf, fin b => if 0 ≤ b then pinf else ninf
  | ninf, fin b => if 0 ≤ b then ninf else pinf
  | pinf, pinf => nan
  | pinf, ninf => nan
  | ninf, pinf => nan
  | ninf, ninf => nan
  | nan, _ => nan
  | _, nan => nan

/-- Embedded `numpy.cos` (NaN on non-finite input). -/
noncomputable def cos : F → F
  | fin a => fin (Real.cos a)
  | _ => nan

/-- Embedded `numpy.sin` (NaN on non-finite input). -/
noncomputable def sin : F → F
  | fin a => fin (Real.sin a)
  | _ => nan

/-- Embedded `numpy.arcsin`: NaN outside `[-1, 1]` and on non-finite input. -/
noncomputable def arcsin : F → F
  | fin a => if -1 ≤ a ∧ a ≤ 1 then fin (Real.arcsin a) else nan
  | _ => nan

/-- Embedded `numpy.sqrt`: NaN on negative input. -/
noncomputable def sqrt : F → F
  | fin a => if 0 ≤ a then fin (Real.sqrt a) else nan
  | pinf => pinf
  | _ => nan

/-- Embedded `numpy.exp`. -/
noncomputable def exp : F → F
  | fin a => fin (Real.exp a)
  | pinf => pinf
  | ninf => fin 0
  | nan => nan

/-- Embedded `scipy.radians`: multiply by `π / 180`. -/
noncomputable def radians : F → F
  | fin a => fin (a * (π / 180))
  | pinf => pinf
  | ninf => ninf
  | nan => nan

/-- Holds exactly for finite values. -/
def isFinite : F → Prop
  | fin _ => True
  | _ => False

noncomputable instance : Add F := ⟨F.add⟩
noncomputable instance : Sub F := ⟨F.sub⟩
noncomputable instance : Mul F := ⟨F.mul⟩
noncomputable instance : Div F := ⟨F.div⟩
noncomputable instance : Neg F := ⟨F.neg⟩

@[simp] theorem add_fin_fin (a b : ℝ) : (fin a) + (fin b) = fin (a + b) := rfl

@[simp] theorem sub_fin_fin (a b : ℝ) : (fin a) - (fin b) = fin (a - b) := rfl

@[simp] theorem mul_fin_fin (a b : ℝ) : (fin a) * (fin b) = fin (a * b) := rfl

@[simp] theorem cos_fin (a : ℝ) : cos (fin a) = fin (Real.cos a) := rfl

@[simp] theorem sin_fin (a : ℝ) : sin (fin a) = fin (Real.sin a) := rfl

@[simp] theorem exp_fin (a : ℝ) : exp (fin a) = fin (Real.exp a) := rfl

@[simp] theorem radians_fin (a : ℝ) : radians (fin a) = fin (a * (π / 180)) := rfl

theorem div_fin_fin {b : ℝ} (a : ℝ) (hb : b ≠ 0) :
    (fin a) / (fin b) = fin (a / b) := by
  show F.div _ _ = _
  simp [F.div, hb]

theorem arcsin_fin {a : ℝ} (h₁ : -1 ≤ a) (h₂ : a ≤ 1) :
    arcsin (fin a) = fin (Real.arcsin a) := by
  simp [F.arcsin, h₁, h₂]

theorem mul_fin_pinf {a : ℝ} (h : 0 < a) : (fin a) * pinf = pinf := by
  show F.mul _ _ = _
  simp [F.mul, h, h.ne']

theorem mul_fin_pinf_neg {a : ℝ} (h : a < 0) : (fin a) * pinf = ninf := by
  show F.mul _ _ = _
  simp [F.mul, h.ne, not_lt.mpr h.le]

theorem mul_ninf_fin_neg {b : ℝ} (h : b < 0) : ninf * (fin b) = pinf := by
  show F.mul _ _ = _
  simp [F.mul, h.ne, not_lt.mpr h.le]

theorem mul_fin_ninf {a : ℝ} (h : a < 0) : (fin a) * ninf = pinf := by
  show F.mul _ _ = _
  simp [F.mul, h.ne, not_lt.mpr h.le]

@[simp] theorem ninf_div_fin_one : (ninf : F) / (fin 1) = ninf := by
  show F.div _ _ = _
  simp [F.div]

end F

/-! ## Data model

The property-key strings of the Python code (`'pore.surface_tension'`,
`'throat.diameter'`, …) select between a pore- and a throat-scoped array; we
embed the scope prefix as the explicit tag `Entity` and keep one array per
(property, scope) pair.
-/

/-- The scope prefix of a property key: `'pore.*'` or `'throat.*'`. -/
inductive Entity where
  | pore : Entity
  | throat : Entity
deriving DecidableEq

/-- The network: topology, coordinates and diameter arrays. -/
structure Network where
  Np : ℕ
  Nt : ℕ
  conns : List (ℕ × ℕ)
  coords : List (ℝ × ℝ × ℝ)
  poreDiameter : List F
  throatDiameter : List F

/-- The phase object's property arrays used by the capillary-pressure models. -/
structure PhaseData where
  poreST : List F
  throatST : List F
  poreCA : List F
  throatCA : List F
  poreTemperature : List F
  poreVaporPressure : List F
  poreMolWeight : List F
  poreDensity : List F

/-- The pore and throat index sets owned by the requesting physics object
(`phase.pores(physics.name)` / `phase.throats(physics.name)`). -/
structure PhysScope where
  pores : List ℕ
  throats : List ℕ

/-- The diameter array selected by the diameter key's scope. -/
def diameterArr (net : Network) : Entity → List F
  | Entity.pore => net.poreDiameter
  | Entity.throat => net.throatDiameter

/-- The surface-tension array of the given scope. -/
def PhaseData.st (ph : PhaseData) : Entity → List F
  | Entity.pore => ph.poreST
  | Entity.throat => ph.throatST

/-- The contact-angle array of the given scope. -/
def PhaseData.ca (ph : PhaseData) : Entity → List F
  | Entity.pore => ph.poreCA
  | Entity.throat => ph.throatCA

/-- Replace the contact-angle array of the given scope (used to reflect an
in-place mutation of the stored array). -/
def setCA (ph : PhaseData) : Entity → List F → PhaseData
  | Entity.pore, a => { ph with poreCA := a }
  | Entity.throat, a => { ph with throatCA := a }

/-- Modelled from the spec: `phase.interpolate_data` is not under `src/`; the
spec's Phase accessor contract interpolates a pore-scoped property to a throat
value as the mean of the two endpoint pore values. -/
noncomputable def interpolate_data (net : Network) (data : List F) : List F :=
  net.conns.map (fun pq =>
    (data.getD pq.1 F.nan + data.getD pq.2 F.nan) / F.fin 2)

/-- Embedded `_get_key_props`: resolve the surface-tension and contact-angle arrays to
the diameter key's entity, interpolating a pore-scoped property when the
target entity is throat.  Returns `(entity, sigma, theta)`. -/
noncomputable def _get_key_props (net : Network) (ph : PhaseData)
    (dKey stKey caKey : Entity) : Entity × List F × List F :=
  let sigma := if stKey = Entity.pore ∧ dKey = Entity.throat then
    interpolate_data net (ph.st Entity.pore) else ph.st stKey
  let theta := if caKey = Entity.pore ∧ dKey = Entity.throat then
    interpolate_data net (ph.ca Entity.pore) else ph.ca caKey
  (dKey, sigma, theta)

/-- Zero-replacement mode of `_handle_zeros`. -/
inductive ZMode where
  | max : ZMode
  | min : ZMode
  | mean : ZMode

/-- The `numpy` pairwise maximum as used by `ndarray.max()` (NaN propagates). -/
noncomputable def fmax : F → F → F
  | F.nan, _ => F.nan
  | _, F.nan => F.nan
  | F.pinf, _ => F.pinf
  | _, F.pinf => F.pinf
  | F.ninf, b => b
  | a, F.ninf => a
  | F.fin a, F.fin b => F.fin (max a b)

/-- Embedded `_handle_zeros`: replace zero entries.  With a caller-supplied `value`, or
with mode `max`, the code works (`value = array.max()`; note this is the max
over ALL entries, not only the non-zero ones).  With mode `min` or `mean` and
no supplied value the code evaluates `array[~array == 0.0]`: the bitwise `~`
is applied to the float array itself (`~array`, then `== 0.0`), which raises
`TypeError` for a float dtype — embedded as `.error`.  `array.max()` of an
empty array also raises — embedded as `.error`. -/
noncomputable def _handle_zeros (a : List F) (mode : ZMode) (value : Option F) :
    Except Unit (List F) :=
  match value with
  | some v => Except.ok (a.map (fun x => if x = F.fin 0 then v else x))
  | none =>
    match mode with
    | ZMode.max =>
      match a with
      | [] => Except.error ()
      | h :: t =>
        let m := t.foldl fmax h
        Except.ok ((h :: t).map (fun x => if x = F.fin 0 then m else x))
    | ZMode.min => Except.error ()
    | ZMode.mean => Except.error ()

/-- Slice a full-entity array to the physics scope
(`value[phase.throats(physics.name)]` / `value[phase.pores(physics.name)]`). -/
def sliceScope (e : Entity) (S : PhysScope) (value : List F) : List F :=
  match e with
  | Entity.throat => S.throats.map (fun t => value.getD t F.nan)
  | Entity.pore => S.pores.map (fun p => value.getD p F.nan)

/-- The mask assignment `value[_sp.absolute(value) == _sp.inf] = 0` applied to
one entry: an entry of infinite magnitude becomes `0`; all others (finite
values and NaN) are untouched. -/
def clampInf1 : F → F
  | F.pinf => F.fin 0
  | F.ninf => F.fin 0
  | v => v

/-- Per-entry Washburn value `-2*sigma*cos(radians(theta))/r`. -/
noncomputable def washburn_entry (s t ri : F) : F :=
  ((F.fin (-2) * s) * F.cos (F.radians t)) / ri

/-- Embedded `washburn`: cylindrical-tube entry pressure. -/
noncomputable def washburn (net : Network) (ph : PhaseData) (S : PhysScope)
    (stKey caKey dKey : Entity) : Except Unit (List F) := do
  let props := _get_key_props net ph dKey stKey caKey
  let r0 := (diameterArr net dKey).map (fun x => x / F.fin 2)
  let r ← _handle_zeros r0 ZMode.max none
  let value := (List.range r0.length).map (fun k =>
    washburn_entry (props.2.1.getD k F.nan) (props.2.2.getD k F.nan)
      (r.getD k F.nan))
  Except.ok ((sliceScope props.1 S value).map clampInf1)

/-- Purcell's `alpha = theta - 180 + arcsin(sin(radians(theta)/(1+r/R)))`.
Note the parenthesisation: the division by `1 + r/R` is applied to the radian
angle inside the sine, not to the sine's value. -/
noncomputable def purcell_alphaF (t ri R : F) : F :=
  (t - F.fin 180) + F.arcsin (F.sin (F.radians t / (F.fin 1 + ri / R)))

/-- Per-entry Purcell value
`(-2*sigma/r) * (cos(radians(theta-alpha)) / (1 + R/r*(1-cos(radians(alpha)))))`. -/
noncomputable def purcell_entry (s t ri R : F) : F :=
  let a := purcell_alphaF t ri R
  ((F.fin (-2) * s) / ri) *
    (F.cos (F.radians (t - a)) /
      (F.fin 1 + (R / ri) * (F.fin 1 - F.cos (F.radians a))))

/-- Embedded `purcell`: toroidal-throat entry pressure.  Unlike `washburn` and
`cuboid`, no infinite-magnitude mask is applied before returning. -/
noncomputable def purcell (net : Network) (ph : PhaseData) (S : PhysScope)
    (r_toroid : F) (stKey caKey dKey : Entity) : Except Unit (List F) := do
  let props := _get_key_props net ph dKey stKey caKey
  let r0 := (diameterArr net dKey).map (fun x => x / F.fin 2)
  let r ← _handle_zeros r0 ZMode.max none
  let value := (List.range r0.length).map (fun k =>
    purcell_entry (props.2.1.getD k F.nan) (props.2.2.getD k F.nan)
      (r.getD k F.nan) r_toroid)
  Except.ok (sliceScope props.1 S value)

/-- Cuboid shape factor
`(theta+cos(theta)^2-pi/4-sin(theta)*cos(theta)) /
 (cos(theta)-sqrt(pi/4-theta+sin(theta)*cos(theta)))` (theta in radians). -/
noncomputable def cuboid_Theta (t : F) : F :=
  (((t + F.cos t * F.cos t) - F.fin (π / 4)) - F.sin t * F.cos t) /
    (F.cos t - F.sqrt ((F.fin (π / 4) - t) + F.sin t * F.cos t))

/-- Per-entry cuboid value `(sigma/rad)*Theta`. -/
noncomputable def cuboid_entry (s t radi : F) : F :=
  (s / radi) * cuboid_Theta t

/-- Embedded `cuboid`: square-tube entry pressure.  The degree-to-radian conversion
`theta *= 2*pi/360` is an in-place operation: unless the contact angle was
interpolated (pore-scoped data with a throat target, which allocates a fresh
array), `theta` aliases the stored phase array, so the stored array is scaled
in place.  The returned pair is `(value, phase after the call)`. -/
noncomputable def cuboid (net : Network) (ph : PhaseData) (S : PhysScope)
    (stKey caKey dKey : Entity) : Except Unit (List F × PhaseData) := do
  let props := _get_key_props net ph dKey stKey caKey
  let theta := props.2.2.map (fun x => x * F.fin (2 * π / 360))
  let ph' := if caKey = Entity.pore ∧ dKey = Entity.throat then ph
    else setCA ph caKey theta
  let r0 := (diameterArr net dKey).map (fun x => x / F.fin 2)
  let rad ← _handle_zeros r0 ZMode.max none
  let value := (List.range r0.length).map (fun k =>
    cuboid_entry (props.2.1.getD k F.nan) (theta.getD k F.nan)
      (rad.getD k F.nan))
  Except.ok ((sliceScope props.1 S value).map clampInf1, ph')

/-- Per-entry Kelvin value `P0*exp((M*2*gamma)/(rho*R*T*r))`, `R = 8.314`. -/
noncomputable def kelvin_entry (T P0 M rho gamma ri : F) : F :=
  P0 * F.exp (((M * F.fin 2) * gamma) / (((rho * F.fin 8.314) * T) * ri))

/-- Embedded `kelvin`: critical vapor pressure.  Computed over all pores; the result is
NOT sliced to the physics scope (the scope argument is unused). -/
noncomputable def kelvin (net : Network) (ph : PhaseData) (_S : PhysScope) :
    Except Unit (List F) := do
  let r0 := net.poreDiameter.map (fun x => x / F.fin 2)
  let r ← _handle_zeros r0 ZMode.max none
  Except.ok ((List.range net.poreDiameter.length).map (fun k =>
    kelvin_entry (ph.poreTemperature.getD k F.nan)
      (ph.poreVaporPressure.getD k F.nan) (ph.poreMolWeight.getD k F.nan)
      (ph.poreDensity.getD k F.nan) (ph.poreST.getD k F.nan)
      (r.getD k F.nan)))

/-- Modelled from the spec: the Network accessor contract returns, for a pore
index, the incident throat indices. -/
def find_neighbor_throats (net : Network) (i : ℕ) : List ℕ :=
  (List.range net.Nt).filter (fun t =>
    (net.conns.getD t (0, 0)).1 == i || (net.conns.getD t (0, 0)).2 == i)

/-- The `numpy` pairwise minimum (NaN propagates). -/
noncomputable def fmin : F → F → F
  | F.nan, _ => F.nan
  | _, F.nan => F.nan
  | F.ninf, _ => F.ninf
  | _, F.ninf => F.ninf
  | F.pinf, b => b
  | a, F.pinf => a
  | F.fin a, F.fin b => F.fin (min a b)

/-- Embedded `np.mean`: sum divided by length (`np.mean([])` is NaN via `0/0`). -/
noncomputable def listMeanF (l : List F) : F :=
  (l.foldl F.add (F.fin 0)) / F.fin l.length

/-- Apply one of `np.min` / `np.max` / `np.mean` (any other string has been
normalised away before this point).  `np.min` / `np.max` of an empty array
raise — embedded as `.error`. -/
noncomputable def npReduce (op : String) (l : List F) : Except Unit F :=
  if op = "min" then
    match l with
    | [] => Except.error ()
    | h :: t => Except.ok (t.foldl fmin h)
  else if op = "max" then
    match l with
    | [] => Except.error ()
    | h :: t => Except.ok (t.foldl fmax h)
  else Except.ok (listMeanF l)

/-- The capillary-pressure values of the throats incident to pore `i`. -/
noncomputable def incidentVals (net : Network) (pc : List F) (i : ℕ) : List F :=
  (find_neighbor_throats net i).map (fun t => pc.getD t F.nan)

/-- Embedded `from_throat`: per-pore reduction of incident-throat capillary pressures.
An operator other than `min`/`max`/`mean` silently falls back to `mean`.  The
result is over all `Np` pores (not sliced to the physics scope). -/
noncomputable def from_throat (net : Network) (pc : List F) (operator : String) :
    Except Unit (List F) :=
  let op := if operator = "min" ∨ operator = "max" ∨ operator = "mean" then
    operator else "mean"
  (List.range net.Np).mapM (fun i => npReduce op (incidentVals net pc i))

/-! ## Cluster tracker and static pressure -/

/-- Pores adjacent to `i` through a throat whose BOTH endpoints satisfy the
occupancy predicate. -/
def adjOcc (net : Network) (occ : List Bool) (i : ℕ) : List ℕ :=
  net.conns.filterMap (fun pq =>
    if occ.getD pq.1 false && occ.getD pq.2 false then
      if pq.1 == i then some pq.2
      else if pq.2 == i then some pq.1
      else none
    else none)

/-- One breadth-first expansion step of a reached-pore set. -/
def stepReach (net : Network) (occ : List Bool) (s : List ℕ) : List ℕ :=
  (s ++ s.flatMap (adjOcc net occ)).dedup

/-- All pores reachable from `i` in the occupancy subgraph (`Np` expansion
steps exhaust every path). -/
def reachSet (net : Network) (occ : List Bool) (i : ℕ) : List ℕ :=
  (stepReach net occ)^[net.Np] [i]

/-- Modelled from the spec: `network.find_clusters2` is not under `src/`; the
spec's Cluster Tracker computes connected components over the subgraph induced
by throats whose both endpoints satisfy the occupancy predicate, labels pores
failing the predicate with the sentinel `-1`, and label values are otherwise
incidental (here: the least reachable pore index). -/
def find_clusters2 (net : Network) (occ : List Bool) : List ℤ :=
  (List.range net.Np).map (fun i =>
    if occ.getD i false then ((reachSet net occ i).foldl min i : ℕ) else (-1 : ℤ))

/-- Embedded `sp.where(clusters == cluster)[0]`: the pores carrying label `c`. -/
def clusterPores (labels : List ℤ) (c : ℤ) (Np : ℕ) : List ℕ :=
  (List.range Np).filter (fun i => labels.getD i (-1) == c)

/-- Pore coordinates (`network['pore.coords'][i]`). -/
def coordsAt (net : Network) (i : ℕ) : ℝ × ℝ × ℝ :=
  net.coords.getD i (0, 0, 0)

/-- Maximum of a list of reals (`sp.amax` of a nonempty selection; `0` for the
empty list, which does not occur for a cluster's pore set). -/
def maxFold : List ℝ → ℝ
  | [] => 0
  | h :: t => t.foldl max h

/-- Componentwise maximum coordinate over a pore set
(`sp.amax(network['pore.coords'][Ps, :], axis=0)`). -/
def tops (net : Network) (Ps : List ℕ) : ℝ × ℝ × ℝ :=
  (maxFold (Ps.map (fun p => (coordsAt net p).1)),
   maxFold (Ps.map (fun p => (coordsAt net p).2.1)),
   maxFold (Ps.map (fun p => (coordsAt net p).2.2)))

/-- Component of a 3-vector by axis index. -/
def comp3 (v : ℝ × ℝ × ℝ) : ℕ → ℝ
  | 0 => v.1
  | 1 => v.2.1
  | _ => v.2.2

/-- Embedded `sp.where(g > 0)[0]`: the axes with a positive gravity component. -/
noncomputable def posAxes (g : ℝ × ℝ × ℝ) : List ℕ :=
  (if 0 < g.1 then [0] else []) ++ (if 0 < g.2.1 then [1] else []) ++
    (if 0 < g.2.2 then [2] else [])

/-- Embedded `sp.reshape(P_temp[:, sp.where(g > 0)[0]], -1)`: for each pore of the
cluster, the products `g*h` at the positive-gravity axes, flattened row-major. -/
noncomputable def Ptemp (net : Network) (g : ℝ × ℝ × ℝ) (Ps : List ℕ) : List ℝ :=
  Ps.flatMap (fun p =>
    (posAxes g).map (fun ax =>
      comp3 g ax * (comp3 (tops net Ps) ax - comp3 (coordsAt net p) ax)))

/-- The assignment `static_pressure[Ps] = vals`: scatter `vals` into `acc` at indices `Ps`. -/
def updateAll (acc : List ℝ) (Ps : List ℕ) (vals : List ℝ) : List ℝ :=
  (Ps.zip vals).foldl (fun a iv => a.set iv.1 iv.2) acc

/-- Embedded `static_pressure`: hydrostatic pressure within each occupied cluster,
measured from the cluster's top coordinate along the gravity axes.  The
`numpy` assignment `static_pressure[Ps] = P_temp*rho[Ps]` requires `P_temp` to
have one entry per pore of the cluster (i.e. exactly one positive gravity
component, as with the default `g = [0, 0, 9.81]`); a shape mismatch raises —
embedded as `none`. -/
noncomputable def static_pressure (net : Network) (rho : List ℝ) (occ : List Bool)
    (g : ℝ × ℝ × ℝ) : Option (List ℝ) :=
  let clusters := find_clusters2 net occ
  let nums := clusters.dedup.filter (fun c => c ≠ -1)
  nums.foldlM (fun acc c =>
    let Ps := clusterPores clusters c net.Np
    let pt := Ptemp net g Ps
    if pt.length = Ps.length then
      some (updateAll acc Ps
        (List.zipWith (fun p ri => p * ri) pt (Ps.map (fun i => rho.getD i 0))))
    else none)
    (List.replicate net.Np (0 : ℝ))

/-- The occupied cluster of pore `i`: the pores sharing its label. -/
def clusterOf (net : Network) (occ : List Bool) (i : ℕ) : List ℕ :=
  clusterPores (find_clusters2 net occ) ((find_clusters2 net occ).getD i (-1))
    net.Np

/-- The `z` coordinate of the topmost pore of a pore set. -/
def topZ (net : Network) (Ps : List ℕ) : ℝ :=
  maxFold (Ps.map (fun p => (coordsAt net p).2.2))

/-! ## Real-valued forms of the per-entry formulas -/

/-- Degrees to radians. -/
noncomputable def radiansR (x : ℝ) : ℝ := x * (π / 180)

/-- Purcell's `alpha` exactly as the code computes it: the division by `1 + r/R` is
applied to the radian angle inside the sine. -/
noncomputable def purcell_alphaR (θ r R : ℝ) : ℝ :=
  θ - 180 + Real.arcsin (Real.sin (radiansR θ / (1 + r / R)))

/-- The Purcell value as the code computes it (given finite inputs and
nonzero divisors). -/
noncomputable def purcell_valueR (σ θ r R : ℝ) : ℝ :=
  -2 * σ / r *
    (Real.cos (radiansR (θ - purcell_alphaR θ r R)) /
      (1 + R / r * (1 - Real.cos (radiansR (purcell_alphaR θ r R)))))

/-- Purcell's `alpha` as claim C1 words it: the arcsine applied to the sine of the
radian contact angle, divided by `1 + r/R`. -/
noncomputable def purcell_spec_alphaR (θ r R : ℝ) : ℝ :=
  θ - 180 + Real.arcsin (Real.sin (radiansR θ) / (1 + r / R))

/-- The Purcell entry pressure exactly as claim C1 words it:
`(-2σ/r)·cos(θ_rad - α_rad)/(1 + (R/r)(1 - cos(α_rad)))` with the spec's α. -/
noncomputable def purcell_spec_valueR (σ θ r R : ℝ) : ℝ :=
  -2 * σ / r *
    (Real.cos (radiansR θ - radiansR (purcell_spec_alphaR θ r R)) /
      (1 + R / r * (1 - Real.cos (radiansR (purcell_spec_alphaR θ r R)))))

/-- The Washburn value as the code computes it. -/
noncomputable def washburn_valueR (σ θ r : ℝ) : ℝ :=
  -2 * σ * Real.cos (radiansR θ) / r

/-! ## Bridging lemmas: on finite inputs with nonzero divisors the `F`-level
entry computations reduce to the real-valued formulas. -/

theorem purcell_alphaF_fin (θ r R : ℝ) (hR : R ≠ 0) (h1 : 1 + r / R ≠ 0) :
    purcell_alphaF (F.fin θ) (F.fin r) (F.fin R) =
      F.fin (purcell_alphaR θ r R) := by
  unfold purcell_alphaF purcell_alphaR radiansR
  rw [F.radians_fin, F.div_fin_fin _ hR, F.add_fin_fin, F.div_fin_fin _ h1,
    F.sin_fin, F.arcsin_fin (Real.neg_one_le_sin _) (Real.sin_le_one _),
    F.sub_fin_fin, F.add_fin_fin]

theorem purcell_entry_fin (σ θ r R : ℝ) (hr : r ≠ 0) (hR : R ≠ 0)
    (h1 : 1 + r / R ≠ 0)
    (hd : 1 + R / r * (1 - Real.cos (radiansR (purcell_alphaR θ r R))) ≠ 0) :
    purcell_entry (F.fin σ) (F.fin θ) (F.fin r) (F.fin R) =
      F.fin (purcell_valueR σ θ r R) := by
  have hd2 : 1 + R / r * (1 - Real.cos (purcell_alphaR θ r R * (π / 180))) ≠ 0 := by
    unfold radiansR at hd
    exact hd
  unfold purcell_entry purcell_valueR radiansR
  rw [purcell_alphaF_fin θ r R hR h1]
  dsimp only
  rw [F.mul_fin_fin, F.div_fin_fin _ hr, F.sub_fin_fin, F.radians_fin,
    F.cos_fin, F.radians_fin, F.cos_fin, F.sub_fin_fin, F.div_fin_fin _ hr,
    F.mul_fin_fin, F.add_fin_fin]
  rw [F.div_fin_fin _ hd2, F.mul_fin_fin]

theorem washburn_entry_fin (σ θ r : ℝ) (hr : r ≠ 0) :
    washburn_entry (F.fin σ) (F.fin θ) (F.fin r) =
      F.fin (washburn_valueR σ θ r) := by
  unfold washburn_entry washburn_valueR radiansR
  rw [F.mul_fin_fin, F.radians_fin, F.cos_fin, F.mul_fin_fin,
    F.div_fin_fin _ hr]

/-! ## Generic helper lemmas -/

@[simp] theorem except_bind_ok {α β : Type} (a : α) (f : α → Except Unit β) :
    (Except.ok a >>= f) = f a := rfl

@[simp] theorem except_bind_error {α β : Type} (e : Unit)
    (f : α → Except Unit β) :
    ((Except.error e : Except Unit α) >>= f) = Except.error e := rfl

theorem fin_ne_fin_zero {x : ℝ} (hx : x ≠ 0) : F.fin x ≠ F.fin 0 := by
  intro h
  exact hx (F.fin.inj h)

theorem handle_zeros_single (x : F) :
    _handle_zeros [x] ZMode.max none = Except.ok [x] := by
  simp [_handle_zeros]

theorem handle_zeros_pair {x y : F} (hx : x ≠ F.fin 0) (hy : y ≠ F.fin 0) :
    _handle_zeros [x, y] ZMode.max none = Except.ok [x, y] := by
  unfold _handle_zeros
  simp only [List.foldl, List.map]
  rw [if_neg hx, if_neg hy]

theorem range_one_eval : List.range 1 = [0] := by decide

theorem range_two_eval : List.range 2 = [0, 1] := by decide

theorem fin_two_div_two : (F.fin 2 : F) / F.fin 2 = F.fin 1 := by
  rw [F.div_fin_fin _ two_ne_zero]
  norm_num

/-! ## Concrete instances used in counterexamples and witnesses

`net1` is a two-pore, one-throat network with pore coordinates `z = 0` and
`z = 1` and all diameters `2` (radius `1`). -/

noncomputable def net1 : Network :=
  { Np := 2, Nt := 1, conns := [(0, 1)], coords := [(0, 0, 0), (0, 0, 1)],
    poreDiameter := [F.fin 2, F.fin 2], throatDiameter := [F.fin 2] }

/-- A physics scope owning pore 0 and throat 0. -/
def S1 : PhysScope := { pores := [0], throats := [0] }

/-- A phase with throat-scoped surface tension `sv` and contact angle `tv`. -/
noncomputable def phT (sv tv : F) : PhaseData :=
  { poreST := [], throatST := [sv], poreCA := [], throatCA := [tv],
    poreTemperature := [], poreVaporPressure := [], poreMolWeight := [],
    poreDensity := [] }

/-- A phase with pore-scoped surface tensions `a, b` and contact angles
`c, d`. -/
noncomputable def phP (a b c d : F) : PhaseData :=
  { poreST := [a, b], throatST := [], poreCA := [c, d], throatCA := [],
    poreTemperature := [], poreVaporPressure := [], poreMolWeight := [],
    poreDensity := [] }

theorem net1_r_eval :
    _handle_zeros ((diameterArr net1 Entity.throat).map (fun x => x / F.fin 2))
      ZMode.max none = Except.ok [F.fin 1] := by
  show _handle_zeros ([F.fin 2].map (fun x => x / F.fin 2)) ZMode.max none = _
  rw [List.map_singleton, fin_two_div_two]
  exact handle_zeros_single _

theorem purcell_eval_single (sv tv R : F) :
    purcell net1 (phT sv tv) S1 R Entity.throat Entity.throat Entity.throat =
      Except.ok [purcell_entry sv tv (F.fin 1) R] := by
  simp only [purcell, net1_r_eval, except_bind_ok]
  simp [_get_key_props, sliceScope, phT, PhaseData.st, PhaseData.ca, net1,
    diameterArr, S1, range_one_eval]

theorem washburn_eval_single (sv tv : F) :
    washburn net1 (phT sv tv) S1 Entity.throat Entity.throat Entity.throat =
      Except.ok [clampInf1 (washburn_entry sv tv (F.fin 1))] := by
  simp only [washburn, net1_r_eval, except_bind_ok]
  simp [_get_key_props, sliceScope, phT, PhaseData.st, PhaseData.ca, net1,
    diameterArr, S1, range_one_eval]

theorem purcell_eval_interp (a b c d R : F) :
    purcell net1 (phP a b c d) S1 R Entity.pore Entity.pore Entity.throat =
      Except.ok [purcell_entry ((a + b) / F.fin 2) ((c + d) / F.fin 2)
        (F.fin 1) R] := by
  simp only [purcell, net1_r_eval, except_bind_ok]
  simp [_get_key_props, interpolate_data, sliceScope, phP, PhaseData.st,
    PhaseData.ca, net1, diameterArr, S1, range_one_eval]

theorem cuboid_eval_single (sv tv : F) :
    cuboid net1 (phT sv tv) S1 Entity.throat Entity.throat Entity.throat =
      Except.ok
        ([clampInf1 (cuboid_entry sv (tv * F.fin (2 * π / 360)) (F.fin 1))],
          setCA (phT sv tv) Entity.throat [tv * F.fin (2 * π / 360)]) := by
  simp only [cuboid, net1_r_eval, except_bind_ok]
  simp [_get_key_props, sliceScope, phT, PhaseData.st, PhaseData.ca, net1,
    diameterArr, S1, range_one_eval]

/-! ## Claim C1: the Purcell formula -/

theorem radiansR_180 : radiansR 180 = π := by
  unfold radiansR
  ring

theorem purcell_alphaR_180 : purcell_alphaR 180 1 1 = π / 2 := by
  unfold purcell_alphaR
  have h1 : radiansR 180 / (1 + 1 / (1 : ℝ)) = π / 2 := by
    rw [radiansR_180]
    norm_num
  rw [h1, Real.sin_pi_div_two, Real.arcsin_one]
  norm_num

theorem hd_c1 :
    1 + 1 / 1 * (1 - Real.cos (radiansR (purcell_alphaR 180 1 1))) ≠ 0 := by
  have := Real.cos_le_one (radiansR (purcell_alphaR 180 1 1))
  intro h
  nlinarith

theorem purcell_valueR_180 :
    purcell_valueR 1 180 1 1 =
      2 * Real.cos (radiansR (π / 2)) / (2 - Real.cos (radiansR (π / 2))) := by
  unfold purcell_valueR
  rw [purcell_alphaR_180]
  have h2 : radiansR (180 - π / 2) = π - radiansR (π / 2) := by
    unfold radiansR
    ring
  rw [h2, Real.cos_pi_sub]
  have h3 : (1 : ℝ) + 1 / 1 * (1 - Real.cos (radiansR (π / 2))) =
      2 - Real.cos (radiansR (π / 2)) := by ring
  rw [h3]
  ring

theorem purcell_spec_alphaR_180 : purcell_spec_alphaR 180 1 1 = 0 := by
  unfold purcell_spec_alphaR
  rw [radiansR_180, Real.sin_pi]
  norm_num [Real.arcsin_zero]

theorem purcell_spec_valueR_180 : purcell_spec_valueR 1 180 1 1 = 2 := by
  unfold purcell_spec_valueR
  rw [purcell_spec_alphaR_180]
  have h0 : radiansR 0 = 0 := by
    unfold radiansR
    ring
  rw [h0, radiansR_180]
  norm_num [Real.cos_pi, Real.cos_zero]

theorem purcell_code_value_ne_spec :
    2 * Real.cos (radiansR (π / 2)) / (2 - Real.cos (radiansR (π / 2))) ≠
      2 := by
  have hcos_le : Real.cos (radiansR (π / 2)) ≤ 1 :=
    Real.cos_le_one (radiansR (π / 2))
  have hpos : (0 : ℝ) < 2 - Real.cos (radiansR (π / 2)) := by linarith
  intro h
  rw [div_eq_iff hpos.ne'] at h
  have hcone : Real.cos (radiansR (π / 2)) = 1 := by linarith
  have hcpos : 0 < radiansR (π / 2) := by
    unfold radiansR
    positivity
  have hclt : radiansR (π / 2) < 2 * π := by
    unfold radiansR
    nlinarith [Real.pi_pos, Real.pi_lt_d2]
  have hc0 : radiansR (π / 2) = 0 :=
    (Real.cos_eq_one_iff_of_lt_of_lt (by linarith) hclt).mp hcone
  linarith

/-- Claim C1, counterexample.  On the two-pore, one-throat network with
surface tension 1, contact angle 180° and radius 1 everywhere, and toroid
radius `R = 1`, `purcell` does NOT return the value the spec's formula
`α = θ − 180 + arcsin( sin(θ_rad) / (1 + r/R) )` prescribes: the code divides
the radian angle by `1 + r/R` inside the sine instead of dividing the sine's
value. -/
theorem purcell_spec_formula_counterexample :
    purcell net1 (phP (F.fin 1) (F.fin 1) (F.fin 180) (F.fin 180)) S1 (F.fin 1)
      Entity.pore Entity.pore Entity.throat ≠
      Except.ok [F.fin (purcell_spec_valueR 1 180 1 1)] := by
  rw [purcell_eval_interp]
  have hs : (F.fin 1 + F.fin 1) / F.fin 2 = F.fin 1 := by
    rw [F.add_fin_fin, F.div_fin_fin _ two_ne_zero]
    norm_num
  have ht : (F.fin 180 + F.fin 180) / F.fin 2 = F.fin 180 := by
    rw [F.add_fin_fin, F.div_fin_fin _ two_ne_zero]
    norm_num
  rw [hs, ht,
    purcell_entry_fin 1 180 1 1 one_ne_zero one_ne_zero (by norm_num) hd_c1]
  intro h
  simp only [Except.ok.injEq, List.cons.injEq, F.fin.injEq, and_true] at h
  rw [purcell_valueR_180, purcell_spec_valueR_180] at h
  exact purcell_code_value_ne_spec h

/-- Claim C1, amended.  For finite inputs with nonzero radius, toroid radius
and denominators, the Purcell entry pressure equals
`(-2σ/r)·cos(θ_rad−α_rad)/(1 + (R/r)(1−cos(α_rad)))` where
`α = θ − 180 + arcsin( sin( θ_rad / (1 + r/R) ) )`: the division by
`1 + r/R` is applied to the radian contact angle inside the sine (not to the
sine's value, as the spec words it). -/
theorem purcell_code_parenthesization (σ θ r R : ℝ) (hr : r ≠ 0) (hR : R ≠ 0)
    (h1 : 1 + r / R ≠ 0)
    (hd : 1 + R / r * (1 - Real.cos (radiansR (purcell_alphaR θ r R))) ≠ 0) :
    purcell_entry (F.fin σ) (F.fin θ) (F.fin r) (F.fin R) =
      F.fin (purcell_valueR σ θ r R) ∧
    purcell_alphaR θ r R =
      θ - 180 + Real.arcsin (Real.sin (radiansR θ / (1 + r / R))) := by
  constructor
  · exact purcell_entry_fin σ θ r R hr hR h1 hd
  · unfold purcell_alphaR
    ring

/-- Witness for C1's amended theorem at `σ = 1, θ = 180°, r = 1, R = 1`. -/
theorem purcell_code_parenthesization_witness :
    purcell_entry (F.fin 1) (F.fin 180) (F.fin 1) (F.fin 1) =
      F.fin (purcell_valueR 1 180 1 1) ∧
    purcell_alphaR 180 1 1 =
      180 - 180 + Real.arcsin (Real.sin (radiansR 180 / (1 + 1 / 1))) :=
  purcell_code_parenthesization 1 180 1 1 one_ne_zero one_ne_zero
    (by norm_num) hd_c1

/-! ## Claim C8: Washburn formula and sign convention -/

theorem cos_radiansR_270 : Real.cos (radiansR 270) = 0 := by
  have h : radiansR 270 = π + π / 2 := by
    unfold radiansR
    ring
  rw [h, Real.cos_add]
  norm_num [Real.cos_pi, Real.sin_pi, Real.cos_pi_div_two,
    Real.sin_pi_div_two]

/-- Claim C8, counterexample.  At `θ = 270° > 90°`, `σ = 1 > 0`, `r = 1 > 0`
the Washburn value is `0`, not strictly positive as the claim states for
every `θ > 90°` (cos 270° = 0; the claim's sign statement needs `θ < 270°`). -/
theorem washburn_sign_claim_counterexample :
    washburn net1 (phT (F.fin 1) (F.fin 270)) S1 Entity.throat Entity.throat
        Entity.throat = Except.ok [F.fin 0] ∧
      (90 : ℝ) < 270 ∧ ¬(0 : ℝ) < 0 := by
  refine ⟨?_, by norm_num, by norm_num⟩
  rw [washburn_eval_single, washburn_entry_fin 1 270 1 one_ne_zero]
  have h : washburn_valueR 1 270 1 = 0 := by
    unfold washburn_valueR
    rw [cos_radiansR_270]
    norm_num
  rw [h]
  rfl

/-- Claim C8, amended.  For any finite `σ, θ` and finite `r ≠ 0` the Washburn
entry value is `-2σ·cos(θ_rad)/r`; at `θ = 90°` it is `0`; for `σ > 0`,
`r > 0` it is strictly positive for `90° < θ < 270°` and strictly negative
for `-90° < θ < 90°` (the claim's unbounded `θ > 90°` / `θ < 90°` fails at
e.g. `θ = 270°`). -/
theorem washburn_formula_and_signs (σ θ r : ℝ) (hr : r ≠ 0) :
    washburn_entry (F.fin σ) (F.fin θ) (F.fin r) =
      F.fin (washburn_valueR σ θ r) ∧
    washburn_valueR σ θ r = -2 * σ * Real.cos (radiansR θ) / r ∧
    (θ = 90 → washburn_valueR σ θ r = 0) ∧
    (0 < r → 0 < σ → 90 < θ → θ < 270 → 0 < washburn_valueR σ θ r) ∧
    (0 < r → 0 < σ → -90 < θ → θ < 90 → washburn_valueR σ θ r < 0) := by
  refine ⟨washburn_entry_fin σ θ r hr, rfl, ?_, ?_, ?_⟩
  · intro h
    subst h
    unfold washburn_valueR radiansR
    have h90 : (90 : ℝ) * (π / 180) = π / 2 := by ring
    rw [h90, Real.cos_pi_div_two]
    ring
  · intro hr0 hσ0 hlo hhi
    have hcos : Real.cos (radiansR θ) < 0 := by
      apply Real.cos_neg_of_pi_div_two_lt_of_lt
      · unfold radiansR
        nlinarith [Real.pi_pos]
      · unfold radiansR
        nlinarith [Real.pi_pos]
    unfold washburn_valueR
    apply div_pos _ hr0
    nlinarith
  · intro hr0 hσ0 hlo hhi
    have hcos : 0 < Real.cos (radiansR θ) := by
      apply Real.cos_pos_of_mem_Ioo
      constructor
      · unfold radiansR
        nlinarith [Real.pi_pos]
      · unfold radiansR
        nlinarith [Real.pi_pos]
    unfold washburn_valueR
    apply div_neg_of_neg_of_pos _ hr0
    nlinarith

/-- Witness for C8's amended theorem at `σ = 1, θ = 180°, r = 1`. -/
theorem washburn_formula_and_signs_witness :
    washburn_entry (F.fin 1) (F.fin 180) (F.fin 1) =
      F.fin (washburn_valueR 1 180 1) ∧
    washburn_valueR 1 180 1 = -2 * 1 * Real.cos (radiansR 180) / 1 ∧
    ((180 : ℝ) = 90 → washburn_valueR 1 180 1 = 0) ∧
    ((0 : ℝ) < 1 → (0 : ℝ) < 1 → (90 : ℝ) < 180 → (180 : ℝ) < 270 →
      0 < washburn_valueR 1 180 1) ∧
    ((0 : ℝ) < 1 → (0 : ℝ) < 1 → (-90 : ℝ) < 180 → (180 : ℝ) < 90 →
      washburn_valueR 1 180 1 < 0) :=
  washburn_formula_and_signs 1 180 1 one_ne_zero

/-! ## Claim C4: no GeometryError surfaces from purcell -/

theorem purcell_alphaR_90_neg2 : purcell_alphaR 90 1 (-2) = -90 := by
  unfold purcell_alphaR
  have h1 : radiansR 90 / (1 + 1 / (-2 : ℝ)) = π := by
    unfold radiansR
    ring
  rw [h1, Real.sin_pi, Real.arcsin_zero]
  norm_num

theorem hd_c4 :
    1 + (-2) / 1 * (1 - Real.cos (radiansR (purcell_alphaR 90 1 (-2)))) ≠
      0 := by
  rw [purcell_alphaR_90_neg2]
  have h2 : radiansR (-90) = -(π / 2) := by
    unfold radiansR
    ring
  rw [h2, Real.cos_neg, Real.cos_pi_div_two]
  norm_num

theorem purcell_valueR_90_neg2 : purcell_valueR 1 90 1 (-2) = -2 := by
  unfold purcell_valueR
  rw [purcell_alphaR_90_neg2]
  have h2 : radiansR (-90) = -(π / 2) := by
    unfold radiansR
    ring
  have h3 : radiansR (90 - -90) = π := by
    unfold radiansR
    ring
  rw [h2, h3, Real.cos_neg, Real.cos_pi_div_two, Real.cos_pi]
  norm_num

theorem hviol_c4 : 1 < |Real.sin (radiansR 90) / (1 + 1 / (-2 : ℝ))| := by
  have h : radiansR 90 = π / 2 := by
    unfold radiansR
    ring
  rw [h, Real.sin_pi_div_two]
  rw [show (1 : ℝ) / (1 + 1 / (-2 : ℝ)) = 2 by norm_num]
  norm_num

/-- Claim C4, counterexample.  At `θ = 90°, r = 1, R = -2` the spec formula's
arcsine argument `sin(θ_rad)/(1 + r/R) = 2` is out of the arcsine's domain,
yet `purcell` raises nothing: it silently returns the plain finite value
`-2` (the code's differently-parenthesised arcsine argument
`sin(θ_rad/(1 + r/R)) = sin(π) = 0` is always in domain). -/
theorem purcell_no_geometry_error :
    purcell net1 (phT (F.fin 1) (F.fin 90)) S1 (F.fin (-2)) Entity.throat
        Entity.throat Entity.throat = Except.ok [F.fin (-2)] ∧
      1 < |Real.sin (radiansR 90) / (1 + 1 / (-2 : ℝ))| := by
  refine ⟨?_, hviol_c4⟩
  rw [purcell_eval_single,
    purcell_entry_fin 1 90 1 (-2) one_ne_zero (by norm_num) (by norm_num)
      hd_c4,
    purcell_valueR_90_neg2]

/-- Claim C4, amended.  Even when the spec formula's arcsine argument
`sin(θ_rad)/(1 + r/R)` has absolute value greater than 1, `purcell` raises no
error and produces a finite value: the argument the code actually passes to
the arcsine is `sin(θ_rad/(1 + r/R))`, a sine, hence always within
`[-1, 1]`. -/
theorem purcell_silent_on_spec_domain_violation (σ θ r R : ℝ) (hr : r ≠ 0)
    (hR : R ≠ 0) (h1 : 1 + r / R ≠ 0)
    (hd : 1 + R / r * (1 - Real.cos (radiansR (purcell_alphaR θ r R))) ≠ 0)
    (_hviol : 1 < |Real.sin (radiansR θ) / (1 + r / R)|) :
    F.isFinite (purcell_entry (F.fin σ) (F.fin θ) (F.fin r) (F.fin R)) ∧
      |Real.sin (radiansR θ / (1 + r / R))| ≤ 1 := by
  constructor
  · rw [purcell_entry_fin σ θ r R hr hR h1 hd]
    trivial
  · exact Real.abs_sin_le_one _

/-- Witness for C4's amended theorem at `σ = 1, θ = 90°, r = 1, R = -2`. -/
theorem purcell_silent_on_spec_domain_violation_witness :
    F.isFinite (purcell_entry (F.fin 1) (F.fin 90) (F.fin 1) (F.fin (-2))) ∧
      |Real.sin (radiansR 90 / (1 + 1 / (-2 : ℝ)))| ≤ 1 :=
  purcell_silent_on_spec_domain_violation 1 90 1 (-2) one_ne_zero
    (by norm_num) (by norm_num) hd_c4 hviol_c4

/-! ## Claim C2: infinite-magnitude results -/

theorem purcell_alphaR_90_1_1 : purcell_alphaR 90 1 1 = π / 4 - 90 := by
  unfold purcell_alphaR
  have h1 : radiansR 90 / (1 + 1 / (1 : ℝ)) = π / 4 := by
    unfold radiansR
    ring
  rw [h1, Real.arcsin_sin (by linarith [Real.pi_pos]) (by linarith [Real.pi_pos])]
  ring

theorem cos_num_c2 :
    Real.cos ((90 - (π / 4 - 90)) * (π / 180)) = -Real.cos (π ^ 2 / 720) := by
  have h : (90 - (π / 4 - 90)) * (π / 180) = π - π ^ 2 / 720 := by ring
  rw [h, Real.cos_pi_sub]

theorem cos_alpha_c2 :
    Real.cos ((π / 4 - 90) * (π / 180)) = Real.sin (π ^ 2 / 720) := by
  have h : (π / 4 - 90) * (π / 180) = -(π / 2 - π ^ 2 / 720) := by ring
  rw [h, Real.cos_neg, Real.cos_pi_div_two_sub]

theorem cos_c720_pos : 0 < Real.cos (π ^ 2 / 720) := by
  apply Real.cos_pos_of_mem_Ioo
  constructor
  · nlinarith [Real.pi_pos, Real.pi_lt_d2]
  · nlinarith [Real.pi_pos, Real.pi_lt_d2]

/-- Claim C2, counterexample.  With a surface tension of `+inf` (and
`θ = 90°, r = 1, R = 1`), `purcell` returns an entry equal to `+inf`: unlike
`washburn` and `cuboid` it applies no
`value[_sp.absolute(value) == _sp.inf] = 0` mask before returning. -/
theorem purcell_returns_infinity :
    purcell net1 (phT F.pinf (F.fin 90)) S1 (F.fin 1) Entity.throat
        Entity.throat Entity.throat = Except.ok [F.pinf] := by
  rw [purcell_eval_single]
  unfold purcell_entry
  rw [purcell_alphaF_fin 90 1 1 one_ne_zero (by norm_num),
    purcell_alphaR_90_1_1]
  dsimp only
  rw [F.mul_fin_pinf_neg (by norm_num : (-2 : ℝ) < 0), F.ninf_div_fin_one]
  rw [F.sub_fin_fin, F.radians_fin, F.cos_fin, F.radians_fin, F.cos_fin,
    F.div_fin_fin _ one_ne_zero, F.sub_fin_fin, F.mul_fin_fin, F.add_fin_fin,
    cos_num_c2, cos_alpha_c2]
  have hden : (1 : ℝ) + 1 / 1 * (1 - Real.sin (π ^ 2 / 720)) ≠ 0 := by
    have := Real.sin_le_one (π ^ 2 / 720)
    intro h
    nlinarith
  rw [F.div_fin_fin _ hden]
  have hneg : -Real.cos (π ^ 2 / 720) /
      (1 + 1 / 1 * (1 - Real.sin (π ^ 2 / 720))) < 0 := by
    apply div_neg_of_neg_of_pos
    · linarith [cos_c720_pos]
    · have := Real.sin_le_one (π ^ 2 / 720)
      nlinarith
  rw [F.mul_ninf_fin_neg hneg]

theorem clampInf1_ne_inf (v : F) :
    clampInf1 v ≠ F.pinf ∧ clampInf1 v ≠ F.ninf := by
  cases v <;> simp [clampInf1]

theorem map_clampInf1_no_inf {l : List F} (v : F)
    (hv : v ∈ l.map clampInf1) : v ≠ F.pinf ∧ v ≠ F.ninf := by
  rw [List.mem_map] at hv
  obtain ⟨w, _, rfl⟩ := hv
  exact clampInf1_ne_inf w

/-- Claim C2, amended.  The infinite-magnitude mask replaces `+inf` and
`-inf` entries with `0`, and `washburn` and `cuboid` apply it to every entry
before returning, so none of their returned entries is `+inf` or `-inf`.
(`purcell` applies no mask and can return an infinity; see the
counterexample.) -/
theorem washburn_cuboid_clamp_infinities :
    clampInf1 F.pinf = F.fin 0 ∧ clampInf1 F.ninf = F.fin 0 ∧
    (∀ (net : Network) (ph : PhaseData) (S : PhysScope)
      (stKey caKey dKey : Entity) (l : List F),
      washburn net ph S stKey caKey dKey = Except.ok l →
        ∀ v ∈ l, v ≠ F.pinf ∧ v ≠ F.ninf) ∧
    (∀ (net : Network) (ph : PhaseData) (S : PhysScope)
      (stKey caKey dKey : Entity) (p : List F × PhaseData),
      cuboid net ph S stKey caKey dKey = Except.ok p →
        ∀ v ∈ p.1, v ≠ F.pinf ∧ v ≠ F.ninf) := by
  refine ⟨rfl, rfl, ?_, ?_⟩
  · intro net ph S stKey caKey dKey l h v hv
    simp only [washburn] at h
    cases hz : _handle_zeros
        ((diameterArr net dKey).map (fun x => x / F.fin 2)) ZMode.max none with
    | error e =>
      rw [hz] at h
      simp at h
    | ok r =>
      rw [hz] at h
      simp only [except_bind_ok, Except.ok.injEq] at h
      subst h
      exact map_clampInf1_no_inf v hv
  · intro net ph S stKey caKey dKey p h v hv
    simp only [cuboid] at h
    cases hz : _handle_zeros
        ((diameterArr net dKey).map (fun x => x / F.fin 2)) ZMode.max none with
    | error e =>
      rw [hz] at h
      simp at h
    | ok r =>
      rw [hz] at h
      simp only [except_bind_ok, Except.ok.injEq] at h
      subst h
      exact map_clampInf1_no_inf v hv

theorem washburn_eval_c2w :
    washburn net1 (phT (F.fin 1) (F.fin 0)) S1 Entity.throat Entity.throat
      Entity.throat = Except.ok [F.fin (-2)] := by
  rw [washburn_eval_single, washburn_entry_fin 1 0 1 one_ne_zero]
  have h : washburn_valueR 1 0 1 = -2 := by
    unfold washburn_valueR radiansR
    norm_num [Real.cos_zero]
  rw [h]
  rfl

/-- Witness for C2's amended theorem: a concrete `washburn` result entry,
shown not to be an infinity by the theorem. -/
theorem washburn_cuboid_clamp_infinities_witness :
    F.fin (-2) ≠ F.pinf ∧ F.fin (-2) ≠ F.ninf :=
  washburn_cuboid_clamp_infinities.2.2.1 net1 (phT (F.fin 1) (F.fin 0)) S1
    Entity.throat Entity.throat Entity.throat [F.fin (-2)] washburn_eval_c2w
    (F.fin (-2)) (by simp)

/-! ## Claim C3: mutation of stored phase arrays -/

/-- Claim C3 (code bug): with a throat-scoped contact angle and a throat
diameter key, `cuboid`'s in-place conversion `theta *= 2*pi/360` scales the
phase's stored contact-angle array: after the call the stored array holds
`[π]` (radians) instead of the original `[180]` (degrees). -/
theorem cuboid_mutates_stored_contact_angle :
    (cuboid net1 (phT (F.fin 1) (F.fin 180)) S1 Entity.throat Entity.throat
        Entity.throat).map (fun p => p.2.throatCA) =
      Except.ok [F.fin π] ∧
    (phT (F.fin 1) (F.fin 180)).throatCA = [F.fin 180] ∧
    (F.fin π : F) ≠ F.fin 180 := by
  refine ⟨?_, rfl, ?_⟩
  · rw [cuboid_eval_single]
    have h : F.fin 180 * F.fin (2 * π / 360) = F.fin π := by
      rw [F.mul_fin_fin]
      norm_num
      ring
    simp [Except.map, setCA, phT, h]
  · intro h
    have h2 := F.fin.inj h
    have := Real.pi_lt_d2
    linarith

/-! ## Claim C5: slicing to the physics scope -/

/-- The number of entries owned by the physics scope for the given entity. -/
def scopeLen (e : Entity) (S : PhysScope) : ℕ :=
  match e with
  | Entity.throat => S.throats.length
  | Entity.pore => S.pores.length

theorem sliceScope_length (e : Entity) (S : PhysScope) (v : List F) :
    (sliceScope e S v).length = scopeLen e S := by
  cases e <;> simp [sliceScope, scopeLen]

theorem get_key_props_fst (net : Network) (ph : PhaseData)
    (dKey stKey caKey : Entity) :
    (_get_key_props net ph dKey stKey caKey).1 = dKey := rfl

theorem mapM_ok_length {α β : Type} (f : α → Except Unit β) :
    ∀ (L : List α) (l : List β), L.mapM f = Except.ok l →
      l.length = L.length := by
  intro L
  induction L with
  | nil =>
    intro l h
    rw [List.mapM_nil] at h
    simp only [pure, Except.pure, Except.ok.injEq] at h
    subst h
    rfl
  | cons a t ih =>
    intro l h
    rw [List.mapM_cons] at h
    cases hfa : f a with
    | error e =>
      rw [hfa] at h
      simp at h
    | ok b =>
      rw [hfa] at h
      simp only [except_bind_ok] at h
      cases hmt : t.mapM f with
      | error e =>
        rw [hmt] at h
        simp at h
      | ok bs =>
        rw [hmt] at h
        simp only [except_bind_ok, pure, Except.pure, Except.ok.injEq] at h
        subst h
        simp [ih bs hmt]

/-- The phase's pore set for claim C5: a proper subset scope. -/
def S5 : PhysScope := { pores := [0], throats := [] }

/-- The phase data for the kelvin counterexample (all pore properties have
two entries). -/
noncomputable def ph5 : PhaseData :=
  { poreST := [F.fin 1, F.fin 1], throatST := [], poreCA := [], throatCA := [],
    poreTemperature := [F.fin 300, F.fin 300],
    poreVaporPressure := [F.fin 1, F.fin 1],
    poreMolWeight := [F.fin 1, F.fin 1],
    poreDensity := [F.fin 1, F.fin 1] }

theorem kelvin_hz_eval :
    _handle_zeros (net1.poreDiameter.map (fun x => x / F.fin 2)) ZMode.max
      none = Except.ok [F.fin 1, F.fin 1] := by
  show _handle_zeros ([F.fin 2, F.fin 2].map (fun x => x / F.fin 2)) ZMode.max
    none = _
  rw [List.map_cons, List.map_cons, List.map_nil, fin_two_div_two]
  exact handle_zeros_pair (fin_ne_fin_zero one_ne_zero)
    (fin_ne_fin_zero one_ne_zero)

/-- Claim C5, counterexample.  On a 2-pore network with a physics scope
owning only pore 0 (a proper subset), `kelvin` returns an array of length 2
(= Np), not of length 1 (= the scope size): it never slices its result to the
physics scope. -/
theorem kelvin_unsliced_counterexample :
    (kelvin net1 ph5 S5).map List.length = Except.ok 2 ∧
      S5.pores.length = 1 := by
  refine ⟨?_, rfl⟩
  simp only [kelvin, kelvin_hz_eval, except_bind_ok]
  simp [Except.map, net1]

/-- Claim C5, amended.  `washburn`, `purcell` and `cuboid` slice their result
to the physics scope (the returned length is the scope's pore/throat count),
but `kelvin` returns one entry per pore-diameter entry and `from_throat` one
entry per pore of the whole network, unsliced. -/
theorem models_output_lengths :
    (∀ (net : Network) (ph : PhaseData) (S : PhysScope)
      (stKey caKey dKey : Entity) (l : List F),
      washburn net ph S stKey caKey dKey = Except.ok l →
        l.length = scopeLen dKey S) ∧
    (∀ (net : Network) (ph : PhaseData) (S : PhysScope) (R : F)
      (stKey caKey dKey : Entity) (l : List F),
      purcell net ph S R stKey caKey dKey = Except.ok l →
        l.length = scopeLen dKey S) ∧
    (∀ (net : Network) (ph : PhaseData) (S : PhysScope)
      (stKey caKey dKey : Entity) (p : List F × PhaseData),
      cuboid net ph S stKey caKey dKey = Except.ok p →
        p.1.length = scopeLen dKey S) ∧
    (∀ (net : Network) (ph : PhaseData) (S : PhysScope) (l : List F),
      kelvin net ph S = Except.ok l → l.length = net.poreDiameter.length) ∧
    (∀ (net : Network) (pc : List F) (op : String) (l : List F),
      from_throat net pc op = Except.ok l → l.length = net.Np) := by
  refine ⟨?_, ?_, ?_, ?_, ?_⟩
  · intro net ph S stKey caKey dKey l h
    simp only [washburn] at h
    cases hz : _handle_zeros
        ((diameterArr net dKey).map (fun x => x / F.fin 2)) ZMode.max none with
    | error e =>
      rw [hz] at h
      simp at h
    | ok r =>
      rw [hz] at h
      simp only [except_bind_ok, Except.ok.injEq] at h
      subst h
      simp [sliceScope_length, get_key_props_fst]
  · intro net ph S R stKey caKey dKey l h
    simp only [purcell] at h
    cases hz : _handle_zeros
        ((diameterArr net dKey).map (fun x => x / F.fin 2)) ZMode.max none with
    | error e =>
      rw [hz] at h
      simp at h
    | ok r =>
      rw [hz] at h
      simp only [except_bind_ok, Except.ok.injEq] at h
      subst h
      simp [sliceScope_length, get_key_props_fst]
  · intro net ph S stKey caKey dKey p h
    simp only [cuboid] at h
    cases hz : _handle_zeros
        ((diameterArr net dKey).map (fun x => x / F.fin 2)) ZMode.max none with
    | error e =>
      rw [hz] at h
      simp at h
    | ok r =>
      rw [hz] at h
      simp only [except_bind_ok, Except.ok.injEq] at h
      rw [← h]
      simp [sliceScope_length, get_key_props_fst]
  · intro net ph S l h
    simp only [kelvin] at h
    cases hz : _handle_zeros (net.poreDiameter.map (fun x => x / F.fin 2))
        ZMode.max none with
    | error e =>
      rw [hz] at h
      simp at h
    | ok r =>
      rw [hz] at h
      simp only [except_bind_ok, Except.ok.injEq] at h
      subst h
      simp
  · intro net pc op l h
    have := mapM_ok_length _ _ _ h
    simpa using this

/-- Witness for C5's amended theorem: a concrete `washburn` call whose output
length is the scope's one throat. -/
theorem models_output_lengths_witness :
    ([F.fin (-2)] : List F).length = scopeLen Entity.throat S1 :=
  models_output_lengths.1 net1 (phT (F.fin 1) (F.fin 0)) S1 Entity.throat
    Entity.throat Entity.throat [F.fin (-2)] washburn_eval_c2w

/-! ## Claim C6: `_handle_zeros` modes -/

/-- Claim C6 (code bug): with mode `min` (likewise `mean`) and no supplied
value, `_handle_zeros` does not replace zeros with the min (mean) of the
non-zero entries: `array[~array == 0.0]` applies the bitwise invert `~` to
the float array itself, which raises `TypeError`, embedded as `.error`. -/
theorem handle_zeros_min_mode_crashes :
    _handle_zeros [F.fin 0, F.fin 2] ZMode.min none = Except.error () ∧
      _handle_zeros [F.fin 0, F.fin 2] ZMode.mean none = Except.error () :=
  ⟨rfl, rfl⟩

/-! ## Claim C7: from_throat reduction -/

theorem mapM_ok_getD {f : ℕ → Except Unit F} :
    ∀ (L : List ℕ) (l : List F), L.mapM f = Except.ok l →
      ∀ k, k < L.length → f (L.getD k 0) = Except.ok (l.getD k F.nan) := by
  intro L
  induction L with
  | nil =>
    intro l h k hk
    simp at hk
  | cons a t ih =>
    intro l h k hk
    rw [List.mapM_cons] at h
    cases hfa : f a with
    | error e =>
      rw [hfa] at h
      simp at h
    | ok b =>
      rw [hfa] at h
      simp only [except_bind_ok] at h
      cases hmt : t.mapM f with
      | error e =>
        rw [hmt] at h
        simp at h
      | ok bs =>
        rw [hmt] at h
        simp only [except_bind_ok, pure, Except.pure, Except.ok.injEq] at h
        subst h
        cases k with
        | zero => simpa using hfa
        | succ k' =>
          simp only [List.getD_cons_succ]
          exact ih bs hmt k' (by simpa using hk)

theorem mapM_exists {f : ℕ → Except Unit F} :
    ∀ L : List ℕ, (∀ a ∈ L, ∃ b, f a = Except.ok b) →
      ∃ l, L.mapM f = Except.ok l := by
  intro L
  induction L with
  | nil =>
    intro _
    exact ⟨[], by rw [List.mapM_nil]; rfl⟩
  | cons a t ih =>
    intro h
    obtain ⟨b, hb⟩ := h a (List.mem_cons_self a t)
    obtain ⟨bs, hbs⟩ := ih (fun x hx => h x (List.mem_cons_of_mem a hx))
    refine ⟨b :: bs, ?_⟩
    rw [List.mapM_cons, hb]
    simp only [except_bind_ok]
    rw [hbs]
    rfl

theorem npReduce_ok {op : String} {h : F} {t : List F} :
    ∃ b, npReduce op (h :: t) = Except.ok b := by
  unfold npReduce
  split
  · exact ⟨_, rfl⟩
  · split
    · exact ⟨_, rfl⟩
    · exact ⟨_, rfl⟩

theorem range_getD {n k : ℕ} (hk : k < n) : (List.range n).getD k 0 = k := by
  rw [List.getD_eq_getElem _ _ (by simpa using hk), List.getElem_range]

/-- Claim C7.  With every pore having at least one incident throat:
`from_throat` succeeds, an operator other than `min`/`max`/`mean` silently
yields the same result as `mean`, and the entry at each pore `i` is the
`min`/`max`/`mean` reduction (`npReduce`) of the capillary pressures of the
throats incident to pore `i`. -/
theorem from_throat_reduction (net : Network) (pc : List F) (operator : String)
    (hne : ∀ i, i < net.Np → incidentVals net pc i ≠ []) :
    (operator ≠ "min" → operator ≠ "max" → operator ≠ "mean" →
      from_throat net pc operator = from_throat net pc "mean") ∧
    (∃ l, from_throat net pc operator = Except.ok l) ∧
    (∀ l, from_throat net pc operator = Except.ok l →
      ∀ i, i < net.Np →
        Except.ok (l.getD i F.nan) =
          npReduce
            (if operator = "min" ∨ operator = "max" ∨ operator = "mean" then
              operator else "mean")
            (incidentVals net pc i)) := by
  refine ⟨?_, ?_, ?_⟩
  · intro h1 h2 h3
    unfold from_throat
    rw [if_neg (by simp [h1, h2, h3]), if_pos (by simp)]
  · unfold from_throat
    apply mapM_exists
    intro a ha
    rw [List.mem_range] at ha
    cases hiv : incidentVals net pc a with
    | nil => exact absurd hiv (hne a ha)
    | cons h t =>
      exact npReduce_ok
  · intro l h i hi
    unfold from_throat at h
    have := mapM_ok_getD _ l h i (by simpa using hi)
    rw [range_getD hi] at this
    exact this.symm

theorem hne_net1 : ∀ i, i < net1.Np → incidentVals net1 [F.fin 5] i ≠ [] := by
  intro i hi
  have hi2 : i < 2 := hi
  interval_cases i <;>
    simp [incidentVals, find_neighbor_throats, net1, range_one_eval]

/-- Witness for C7 at a concrete network with the invalid operator `"foo"`:
the result equals the `mean` result. -/
theorem from_throat_reduction_witness :
    from_throat net1 [F.fin 5] "foo" = from_throat net1 [F.fin 5] "mean" :=
  (from_throat_reduction net1 [F.fin 5] "foo" hne_net1).1 (by decide)
    (by decide) (by decide)

/-! ## Claims C9/C10: static pressure -/

theorem getD_range_map {α : Type} (f : ℕ → α) {n i : ℕ} (h : i < n) (d : α) :
    ((List.range n).map f).getD i d = f i := by
  rw [List.getD_eq_getElem _ _ (by simpa using h), List.getElem_map,
    List.getElem_range]

theorem find_clusters2_length (net : Network) (occ : List Bool) :
    (find_clusters2 net occ).length = net.Np := by
  simp [find_clusters2]

theorem find_clusters2_getD_occ (net : Network) (occ : List Bool) {i : ℕ}
    (hi : i < net.Np) (hocc : occ.getD i false = true) :
    (find_clusters2 net occ).getD i (-1) =
      (((reachSet net occ i).foldl min i : ℕ) : ℤ) := by
  unfold find_clusters2
  rw [getD_range_map _ hi, if_pos hocc]

theorem find_clusters2_getD_unocc (net : Network) (occ : List Bool) {i : ℕ}
    (hi : i < net.Np) (hocc : occ.getD i false = false) :
    (find_clusters2 net occ).getD i (-1) = -1 := by
  unfold find_clusters2
  rw [getD_range_map _ hi, if_neg ?_]
  intro h
  rw [h] at hocc
  exact Bool.noConfusion hocc

theorem find_clusters2_occ_ne_neg_one (net : Network) (occ : List Bool)
    {i : ℕ} (hi : i < net.Np) (hocc : occ.getD i false = true) :
    (find_clusters2 net occ).getD i (-1) ≠ -1 := by
  rw [find_clusters2_getD_occ net occ hi hocc]
  omega

theorem mem_clusterPores {labels : List ℤ} {c : ℤ} {Np i : ℕ} :
    i ∈ clusterPores labels c Np ↔ i < Np ∧ labels.getD i (-1) = c := by
  simp [clusterPores, List.mem_filter]

theorem clusterPores_nodup (labels : List ℤ) (c : ℤ) (Np : ℕ) :
    (clusterPores labels c Np).Nodup :=
  (List.nodup_range Np).filter _

theorem posAxes_z {gz : ℝ} (hgz : 0 < gz) : posAxes (0, 0, gz) = [2] := by
  simp [posAxes, hgz]

theorem flatMap_singleton_map {α β : Type} (f : α → β) :
    ∀ l : List α, (l.flatMap (fun x => [f x])) = l.map f := by
  intro l
  induction l with
  | nil => rfl
  | cons a t ih => simp [List.flatMap_cons, ih]

theorem comp3_tops_z (net : Network) (Ps : List ℕ) :
    comp3 (tops net Ps) 2 = topZ net Ps := rfl

theorem Ptemp_z (net : Network) {gz : ℝ} (Ps : List ℕ) (hgz : 0 < gz) :
    Ptemp net (0, 0, gz) Ps =
      Ps.map (fun p => gz * (topZ net Ps - (coordsAt net p).2.2)) := by
  unfold Ptemp
  rw [posAxes_z hgz]
  rw [show (fun p => List.map
      (fun ax => comp3 (0, 0, gz) ax * (comp3 (tops net Ps) ax -
        comp3 (coordsAt net p) ax)) [2]) =
      (fun p => [gz * (topZ net Ps - (coordsAt net p).2.2)]) from ?_]
  · exact flatMap_singleton_map _ Ps
  · funext p
    simp [comp3, tops, topZ]

theorem updateAll_length (Ps : List ℕ) (vals : List ℝ) (acc : List ℝ) :
    (updateAll acc Ps vals).length = acc.length := by
  unfold updateAll
  generalize Ps.zip vals = pz
  induction pz generalizing acc with
  | nil => rfl
  | cons a t ih => simp [List.foldl_cons, ih]

theorem updateAll_not_mem {Ps : List ℕ} {i : ℕ} (hni : i ∉ Ps)
    (vals acc : List ℝ) (d : ℝ) :
    (updateAll acc Ps vals).getD i d = acc.getD i d := by
  unfold updateAll
  induction Ps generalizing vals acc with
  | nil => rfl
  | cons p t ih =>
    cases vals with
    | nil => rfl
    | cons v vs =>
      rw [List.zip_cons_cons, List.foldl_cons]
      have hne : i ∉ t := fun h => hni (List.mem_cons_of_mem p h)
      rw [ih hne vs]
      have hpi : p ≠ i := fun h => hni (h ▸ List.mem_cons_self p t)
      simp [List.getD_eq_getElem?_getD, List.getElem?_set_ne hpi]

theorem updateAll_map_mem (f : ℕ → ℝ) :
    ∀ (Ps : List ℕ) (acc : List ℝ), Ps.Nodup → ∀ i ∈ Ps, i < acc.length →
      (updateAll acc Ps (Ps.map f)).getD i 0 = f i := by
  intro Ps
  induction Ps with
  | nil =>
    intro acc _ i hi
    simp at hi
  | cons p t ih =>
    intro acc hnd i hi hlen
    rw [List.map_cons]
    show (updateAll acc (p :: t) (f p :: t.map f)).getD i 0 = f i
    unfold updateAll
    rw [List.zip_cons_cons, List.foldl_cons]
    rcases List.mem_cons.mp hi with hip | hit
    · subst hip
      have hnott : i ∉ t := (List.nodup_cons.mp hnd).1
      have : ((t.zip (t.map f)).foldl (fun a iv => a.set iv.1 iv.2)
          (acc.set i (f i))).getD i 0 = (acc.set i (f i)).getD i 0 :=
        updateAll_not_mem hnott (t.map f) (acc.set i (f i)) 0
      rw [this]
      simp [List.getD_eq_getElem?_getD, List.getElem?_set_self
        (by simpa using hlen)]
    · have := ih (acc.set p (f p)) (List.nodup_cons.mp hnd).2 i hit
        (by simpa using hlen)
      exact this

theorem zipWith_map_same {α β γ δ : Type} (f : β → γ → δ) (g : α → β)
    (h : α → γ) :
    ∀ l : List α, List.zipWith f (l.map g) (l.map h) =
      l.map (fun x => f (g x) (h x)) := by
  intro l
  induction l with
  | nil => rfl
  | cons a t ih => simp [ih]

theorem foldlM_of_forall_some {α β : Type} (g : β → α → Option β)
    (f : β → α → β) (h : ∀ b a, g b a = some (f b a)) :
    ∀ (L : List α) (b : β), L.foldlM g b = some (L.foldl f b) := by
  intro L
  induction L with
  | nil => intro b; rfl
  | cons a t ih =>
    intro b
    rw [List.foldlM_cons, h b a, List.foldl_cons]
    exact ih (f b a)

/-- One cluster's update of the static-pressure accumulator (the loop body
for a single positive gravity axis `z` with magnitude `gz`). -/
noncomputable def spStep (net : Network) (rho : List ℝ) (labels : List ℤ)
    (gz : ℝ) (acc : List ℝ) (c : ℤ) : List ℝ :=
  let Ps := clusterPores labels c net.Np
  updateAll acc Ps
    (List.zipWith (fun p ri => p * ri)
      (Ps.map (fun p => gz * (topZ net Ps - (coordsAt net p).2.2)))
      (Ps.map (fun i => rho.getD i 0)))

theorem static_pressure_z_eq (net : Network) (rho : List ℝ) (occ : List Bool)
    {gz : ℝ} (hgz : 0 < gz) :
    static_pressure net rho occ (0, 0, gz) =
      some ((((find_clusters2 net occ).dedup.filter (fun c => c ≠ -1)).foldl
        (spStep net rho (find_clusters2 net occ) gz)
        (List.replicate net.Np 0))) := by
  unfold static_pressure
  apply foldlM_of_forall_some
  intro acc c
  dsimp only
  have hpt := Ptemp_z net (clusterPores (find_clusters2 net occ) c net.Np) hgz
  rw [hpt, if_pos (by simp)]
  unfold spStep
  rfl

theorem spFold_length (net : Network) (rho : List ℝ) (labels : List ℤ)
    (gz : ℝ) :
    ∀ (nums : List ℤ) (acc : List ℝ),
      (nums.foldl (spStep net rho labels gz) acc).length = acc.length := by
  intro nums
  induction nums with
  | nil => intro acc; rfl
  | cons c t ih =>
    intro acc
    rw [List.foldl_cons, ih]
    unfold spStep
    exact updateAll_length _ _ _

theorem spFold_not_mem (net : Network) (rho : List ℝ) (labels : List ℤ)
    (gz : ℝ) {i : ℕ} :
    ∀ (nums : List ℤ) (acc : List ℝ),
      (∀ c ∈ nums, labels.getD i (-1) ≠ c) →
      (nums.foldl (spStep net rho labels gz) acc).getD i 0 = acc.getD i 0 := by
  intro nums
  induction nums with
  | nil => intro acc _; rfl
  | cons c t ih =>
    intro acc hni
    rw [List.foldl_cons, ih _ (fun c' hc' => hni c' (List.mem_cons_of_mem c hc'))]
    unfold spStep
    apply updateAll_not_mem
    intro hmem
    exact hni c (List.mem_cons_self c t)
      ((mem_clusterPores.mp hmem).2)

theorem spFold_value (net : Network) (rho : List ℝ) (labels : List ℤ)
    (gz : ℝ) {i : ℕ} (hi : i < net.Np) :
    ∀ (nums : List ℤ) (acc : List ℝ), nums.Nodup →
      labels.getD i (-1) ∈ nums → acc.length = net.Np →
      (nums.foldl (spStep net rho labels gz) acc).getD i 0 =
        gz * (topZ net (clusterPores labels (labels.getD i (-1)) net.Np) -
          (coordsAt net i).2.2) * rho.getD i 0 := by
  intro nums
  induction nums with
  | nil =>
    intro acc _ hmem
    simp at hmem
  | cons c t ih =>
    intro acc hnd hmem hlen
    rw [List.foldl_cons]
    by_cases hc : labels.getD i (-1) = c
    · subst hc
      have hnott : labels.getD i (-1) ∉ t := (List.nodup_cons.mp hnd).1
      rw [spFold_not_mem net rho labels gz t _
        (fun c' hc' h => hnott (h ▸ hc'))]
      unfold spStep
      dsimp only
      rw [zipWith_map_same]
      have himem : i ∈ clusterPores labels (labels.getD i (-1)) net.Np :=
        mem_clusterPores.mpr ⟨hi, rfl⟩
      exact updateAll_map_mem _ _ acc
        (clusterPores_nodup labels _ net.Np) i himem (hlen ▸ hi)
    · have hmem' : labels.getD i (-1) ∈ t := by
        rcases List.mem_cons.mp hmem with h | h
        · exact absurd h hc
        · exact h
      have hlen2 : (spStep net rho labels gz acc c).length = net.Np := by
        unfold spStep
        rw [updateAll_length]
        exact hlen
      exact ih _ (List.nodup_cons.mp hnd).2 hmem' hlen2

theorem label_mem_nums (net : Network) (occ : List Bool) {i : ℕ}
    (hi : i < net.Np) (hocc : occ.getD i false = true) :
    (find_clusters2 net occ).getD i (-1) ∈
      (find_clusters2 net occ).dedup.filter (fun c => c ≠ -1) := by
  apply List.mem_filter.mpr
  constructor
  · apply List.mem_dedup.mpr
    rw [List.getD_eq_getElem _ _ (by rw [find_clusters2_length]; exact hi)]
    exact List.getElem_mem _
  · simpa using find_clusters2_occ_ne_neg_one net occ hi hocc

/-- Claim C9.  For gravity `g = [0, 0, gz]` with `gz > 0`, `static_pressure`
succeeds and assigns to every occupied pore `i` the pressure
`ρ_i · gz · (top-z of i's cluster − z_i)`, the cluster being the set of pores
sharing `i`'s label in the occupancy clustering. -/
theorem static_pressure_cluster_heights (net : Network) (rho : List ℝ)
    (occ : List Bool) (gz : ℝ) (hgz : 0 < gz) (i : ℕ) (hi : i < net.Np)
    (hocc : occ.getD i false = true) :
    (static_pressure net rho occ (0, 0, gz)).isSome = true ∧
      ((static_pressure net rho occ (0, 0, gz)).getD []).getD i 0 =
        rho.getD i 0 * gz *
          (topZ net (clusterOf net occ i) - (coordsAt net i).2.2) := by
  rw [static_pressure_z_eq net rho occ hgz]
  refine ⟨rfl, ?_⟩
  rw [Option.getD_some]
  rw [spFold_value net rho (find_clusters2 net occ) gz hi _ _
    ((List.nodup_dedup _).filter _) (label_mem_nums net occ hi hocc)
    (List.length_replicate _ _)]
  unfold clusterOf
  ring

/-- Witness for C9: two occupied pores at `z = 0` and `z = 1` joined by one
throat, density 1000, `g = [0, 0, 9.81]`: the bottom pore receives the static
pressure 9810 (and, by the same theorem at pore 1, the top pore receives 0). -/
theorem static_pressure_cluster_heights_witness :
    (static_pressure net1 [1000, 1000] [true, true] (0, 0, 9.81)).isSome =
        true ∧
      ((static_pressure net1 [1000, 1000] [true, true]
          (0, 0, 9.81)).getD []).getD 0 0 = 9810 := by
  obtain ⟨h1, h2⟩ := static_pressure_cluster_heights net1 [1000, 1000]
    [true, true] 9.81 (by norm_num) 0 (by decide) rfl
  refine ⟨h1, ?_⟩
  rw [h2]
  have hc : clusterOf net1 [true, true] 0 = [0, 1] := by decide
  rw [hc]
  have ht : topZ net1 [0, 1] = 1 := by
    show maxFold [(coordsAt net1 0).2.2, (coordsAt net1 1).2.2] = 1
    show max (coordsAt net1 0).2.2 (coordsAt net1 1).2.2 = 1
    show max (0 : ℝ) 1 = 1
    exact max_eq_right zero_le_one
  rw [ht]
  show (1000 : ℝ) * 9.81 * (1 - (0 : ℝ)) = 9810
  norm_num

/-- Claim C10.  With the default gravity `[0, 0, 9.81]`, `static_pressure`
always succeeds with an array of length `Np`, and every pore whose occupancy
entry is `false` (sentinel cluster `-1`) keeps the initial value `0`. -/
theorem static_pressure_length_and_idle_pores (net : Network) (rho : List ℝ)
    (occ : List Bool) :
    (static_pressure net rho occ (0, 0, 9.81)).isSome = true ∧
      ((static_pressure net rho occ (0, 0, 9.81)).getD []).length = net.Np ∧
      (∀ i, i < net.Np → occ.getD i false = false →
        ((static_pressure net rho occ (0, 0, 9.81)).getD []).getD i 0 =
          0) := by
  rw [static_pressure_z_eq net rho occ (by norm_num : (0 : ℝ) < 9.81)]
  refine ⟨rfl, ?_, ?_⟩
  · rw [Option.getD_some, spFold_length, List.length_replicate]
  · intro i hi hocc
    rw [Option.getD_some]
    rw [spFold_not_mem net rho (find_clusters2 net occ) 9.81 _ _ ?_]
    · rw [List.getD_eq_getElem _ _ (by simpa using hi),
        List.getElem_replicate]
    · intro c hc
      rw [find_clusters2_getD_unocc net occ hi hocc]
      have := (List.mem_filter.mp hc).2
      simp at this
      omega

/-- Witness for C10: with pore 1 unoccupied, the result has length 2 and the
entry at pore 1 is 0. -/
theorem static_pressure_length_and_idle_pores_witness :
    ((static_pressure net1 [1000, 1000] [true, false]
        (0, 0, 9.81)).getD []).length = 2 ∧
      ((static_pressure net1 [1000, 1000] [true, false]
          (0, 0, 9.81)).getD []).getD 1 0 = 0 := by
  obtain ⟨h1, h2, h3⟩ := static_pressure_length_and_idle_pores net1
    [1000, 1000] [true, false]
  exact ⟨h2, h3 1 (by decide) rfl⟩
